import Mathlib

/-
Verification of the uterm host bridge (utermhost/host.py) against its
specification.  Bytes are modelled as natural numbers, byte strings as
List Nat, and each operation of HostController is shallowly embedded as
a Lean function on those lists.
-/

set_option autoImplicit false

namespace Uterm

/-- rfc1055 SLIP special character code END (0xc0), from HostController. -/
def END : Nat := 0xc0

/-- rfc1055 SLIP special character code ESC (0xdb), from HostController. -/
def ESC : Nat := 0xdb

/-- rfc1055 code ESC_END (0xdd): ESC ESC_END means END data byte. -/
def ESC_END : Nat := 0xdd

/-- rfc1055 code ESC_ESC (0xde): ESC ESC_ESC means ESC data byte. -/
def ESC_ESC : Nat := 0xde

/-- Command tag GET_CAPS = 00 00 from HostController. -/
def GET_CAPS : List Nat := [0x00, 0x00]

/-- Command tag GET_KEYS = 01 01 from HostController. -/
def GET_KEYS : List Nat := [0x01, 0x01]

/-- Command tag SEND_PTY = 02 02 from HostController. -/
def SEND_PTY : List Nat := [0x02, 0x02]

/-- Command tag SIG_INT = 03 03 from HostController. -/
def SIG_INT : List Nat := [0x03, 0x03]

/-- HostController.BUFSIZE, the SEND_PTY chunk bound. -/
def BUFSIZE : Nat := 92

/-- HostController.IO_TIMEOUT, the watchdog timeout in seconds. -/
def IO_TIMEOUT : Nat := 5

/-- Python bytes.replace specialised to a single-byte pattern, as used in
send_packet where the patterns ESC and END are single bytes. -/
def replaceByte (pat : Nat) (rep : List Nat) : List Nat → List Nat
  | [] => []
  | b :: bs => (if b = pat then rep else [b]) ++ replaceByte pat rep bs

/-- The bytes put on the wire by HostController.send_packet (host.py lines
108-121): END, then data with ESC replaced by ESC ESC_ESC and afterwards END
replaced by ESC ESC_END, then END. -/
def send_packet (data : List Nat) : List Nat :=
  END :: replaceByte END [ESC, ESC_END] (replaceByte ESC [ESC, ESC_ESC] data) ++ [END]

/-- HostController.recv_packet (host.py lines 123-148) as a function of the
remaining input stream and of the accumulator (the received BytesIO).  It
returns the decoded frame together with the unconsumed stream, or none when
recv returns zero bytes (the peer closed: SystemExit).  An ESC at the very
end of the stream makes the code append the empty esc_char and loop, and the
next recv then returns zero bytes, hence none in that case as well. -/
def recv_packet : List Nat → List Nat → Option (List Nat × List Nat)
  | [], _ => none
  | c :: rest, acc =>
    if c = END then
      if acc = [] then recv_packet rest acc
      else some (acc, rest)
    else if c = ESC then
      match rest with
      | [] => none
      | e :: rest2 =>
        if e = ESC_ESC then recv_packet rest2 (acc ++ [ESC])
        else if e = ESC_END then recv_packet rest2 (acc ++ [END])
        else recv_packet rest2 (acc ++ [e])
    else recv_packet rest (acc ++ [c])

/-- The two-pass byte stuffing inside send_packet, prior to the delimiters. -/
def stuffed (data : List Nat) : List Nat :=
  replaceByte END [ESC, ESC_END] (replaceByte ESC [ESC, ESC_ESC] data)

/-- Per-byte view of the stuffing: what one data byte becomes on the wire. -/
def enc1 (b : Nat) : List Nat :=
  if b = ESC then [ESC, ESC_ESC] else if b = END then [ESC, ESC_END] else [b]

/-- Response handling of HostController.get_keys (host.py lines 163-168), as a
function of the decoded response frame: a frame that does not start with the
GET_KEYS tag yields the empty keystroke batch, otherwise the bytes after the
two tag bytes. -/
def get_keys (resp : List Nat) : List Nat :=
  if GET_KEYS.isPrefixOf resp then resp.drop 2 else []

/-- Transport direction bookkeeping of SerialHostController, from the
Direction enum in host.py. -/
inductive Direction where
  | UND
  | IN
  | OUT
  deriving DecidableEq

/-- SerialHostController.SWAP_DELAY = 0.1 seconds, as an exact rational; the
code guards each turnaround on the truthiness of this constant. -/
def SWAP_DELAY : ℚ := 1 / 10

/-- Observable effects of one serial transport operation, in program order. -/
inductive SerEv where
  | sleep (t : ℚ)
  | tx (data : List Nat)
  | rx (n : Nat)
  deriving DecidableEq

/-- SerialHostController.send (host.py lines 232-236): when SWAP_DELAY is
nonzero and last_direction is not OUT, sleep SWAP_DELAY and set the direction
to OUT before writing the data; returns the new last_direction together with
the ordered effects. -/
def serial_send (d : Direction) (data : List Nat) : Direction × List SerEv :=
  if SWAP_DELAY ≠ 0 ∧ d ≠ Direction.OUT then
    (Direction.OUT, [SerEv.sleep SWAP_DELAY, SerEv.tx data])
  else (d, [SerEv.tx data])

/-- SerialHostController.recv (host.py lines 238-242), symmetrically for the
IN direction before reading n bytes. -/
def serial_recv (d : Direction) (n : Nat) : Direction × List SerEv :=
  if SWAP_DELAY ≠ 0 ∧ d ≠ Direction.IN then
    (Direction.IN, [SerEv.sleep SWAP_DELAY, SerEv.rx n])
  else (d, [SerEv.rx n])

/-- Side effects of HostController.attach, in the order the code performs
them. -/
inductive AttachEff where
  | winsize (rows cols : Nat)
  | nonblocking
  | register (readable writable : Bool)
  deriving DecidableEq

/-- HostController.attach (host.py lines 92-100) as a transition on the stored
PTY fd _fd (sentinel -1 means unattached): attaching while a fd is stored
raises RuntimeError before performing any effect, hence the error result
carries no effect list and no new state; a first attach sets the window size
to 24 rows by 51 columns, makes the fd nonblocking, registers it for read and
write readiness, and stores it. -/
def attach (currentFd fd : Int) : Except Unit (Int × List AttachEff) :=
  if currentFd ≠ -1 then Except.error ()
  else Except.ok (fd,
    [AttachEff.winsize 24 51, AttachEff.nonblocking, AttachEff.register true true])

/-- Possible outcomes of the EVENT_WRITE branch of HostController._handle_pty
(host.py lines 78-90). -/
inductive WriteOutcome where
  | ok (kbd : List Nat)
  | sigintExit
  | fatalNoSigint
  deriving DecidableEq

/-- The EVENT_WRITE branch of HostController._handle_pty as a function of the
inbound keystroke queue _kbd and of the os.writev result on the PTY master
(error () models OSError, ok l a write that consumed l bytes).  An empty queue
returns at once; a full write clears the queue; a short write raises
RuntimeError, which the except OSError clause does not catch, so the bridge
terminates without calling signal_int; an OSError is caught and answered with
signal_int followed by SystemExit. -/
def handle_pty_write (kbd : List Nat) (writevRes : Except Unit Nat) : WriteOutcome :=
  if kbd = [] then WriteOutcome.ok kbd
  else
    match writevRes with
    | Except.error _ => WriteOutcome.sigintExit
    | Except.ok l =>
      if l = kbd.length then WriteOutcome.ok []
      else WriteOutcome.fatalNoSigint

/-- Observable result of one run of sigalrm_handler (host.py lines 305-315):
the graceful flag afterwards, the request frames passed to send_packet, the
response frames read inside the handler (the handler never reads any), and
whether the handler ended in an exception (SystemError when not graceful, or
a transport error escaping from send_packet). -/
structure AlarmOut where
  graceful : Bool
  sent : List (List Nat)
  received : List (List Nat)
  fatal : Bool
  deriving DecidableEq

/-- sigalrm_handler itself; sendOk tells whether send_packet(GET_CAPS)
completed without a transport error.  When graceful, the flag is cleared,
GET_CAPS is sent, and the flag is set back to true as soon as the send
returns, with no response read in between; when not graceful, SystemError. -/
def sigalrm_handler (graceful sendOk : Bool) : AlarmOut :=
  if graceful then
    if sendOk then ⟨true, [GET_CAPS], [], false⟩
    else ⟨false, [GET_CAPS], [], true⟩
  else ⟨false, [], [], true⟩

/-- The inner while-loop of HostController.serve (host.py lines 202-207):
while the outbound queue _pty is non-empty, copy it out, send its first
BUFSIZE bytes as the SEND_PTY payload, clear the queue and put back the
remainder.  Returns the payloads in emission order. -/
def serve_drain (q : List Nat) : List (List Nat) :=
  if h : q = [] then []
  else q.take BUFSIZE :: serve_drain (q.drop BUFSIZE)
termination_by q.length
decreasing_by
  simp only [List.length_drop]
  have hq : 0 < q.length := List.length_pos.mpr h
  have hb : 0 < BUFSIZE := by decide
  omega

/-- The two kinds of outbound-path events in serve: the EVENT_READ branch of
_handle_pty (host.py lines 72-76) appending freshly read PTY bytes to _pty,
and the drain loop above emptying _pty into SEND_PTY payloads.  No other code
touches _pty; the loop is single threaded and the signal handlers do not. -/
inductive PtyEvent where
  | read (bs : List Nat)
  | drain

/-- One serve-loop step on the state (outbound queue _pty, payloads emitted so
far). -/
def serve_step : List Nat × List (List Nat) → PtyEvent → List Nat × List (List Nat)
  | (q, out), PtyEvent.read bs => (q ++ bs, out)
  | (q, out), PtyEvent.drain => ([], out ++ serve_drain q)

/-- The bytes an event reads from the PTY master. -/
def read_bytes : PtyEvent → List Nat
  | PtyEvent.read bs => bs
  | PtyEvent.drain => []

/-- A transport I/O event: a request frame sent, or a response frame read. -/
inductive Ev where
  | req
  | resp
  deriving DecidableEq

/-- The operations of host.py that touch the transport. -/
inductive Op where
  | caps
  | keys
  | pty
  | alarm
  | sigint
  deriving DecidableEq

/-- Transport events performed by each operation, read off host.py: get_keys
(lines 163-168) and send_pty (170-172) pair one send_packet with one
recv_packet, and so does serve's startup GET_CAPS exchange (187-188);
signal_int (174-176) only sends, and the graceful branch of sigalrm_handler
(305-312) sends its recovery GET_CAPS and reads nothing. -/
def opEvents : Op → List Ev
  | Op.caps => [Ev.req, Ev.resp]
  | Op.keys => [Ev.req, Ev.resp]
  | Op.pty => [Ev.req, Ev.resp]
  | Op.alarm => [Ev.req]
  | Op.sigint => [Ev.req]

/-- Operations that can occur inside the serve loop: keystroke polls, pty
chunks, and a watchdog alarm firing at a suspension point between them. -/
def midOp : Op → Bool
  | Op.keys => true
  | Op.pty => true
  | Op.alarm => true
  | _ => false

/-- Shape of the loop body plus shutdown: loop operations followed by the one
final signal_int that serve performs on exit (host.py line 209). -/
def serve_tail : List Op → Bool
  | [] => false
  | [o] => decide (o = Op.sigint)
  | o :: o2 :: rest => midOp o && serve_tail (o2 :: rest)

/-- Shape of a full serve execution: the startup GET_CAPS exchange, then the
loop operations, possibly interleaved with alarm recoveries, then the final
signal_int. -/
def serve_ops : List Op → Bool
  | Op.caps :: rest => serve_tail rest
  | _ => false

/-- The request-serialization invariant of the spec as a check over an event
list: walking the events with running counts of requests sent s and responses
received r, after every event r ≤ s and s ≤ r + 1 must hold. -/
def ser_check (s r : Nat) : List Ev → Bool
  | [] => true
  | e :: t =>
    let s2 := if e = Ev.req then s + 1 else s
    let r2 := if e = Ev.resp then r + 1 else r
    decide (r2 ≤ s2) && decide (s2 ≤ r2 + 1) && ser_check s2 r2 t

/-- HostController.set_watchdog (host.py lines 182-184), as the list of alarm
timeouts it arms: signal.alarm(IO_TIMEOUT) is called only when _enabled is
true, and nothing happens otherwise. -/
def set_watchdog (enabled : Bool) : List Nat :=
  if enabled then [IO_TIMEOUT] else []

/-- The alarms armed by one send_packet call: send_packet calls set_watchdog
exactly once, before sending (host.py line 113). -/
def send_packet_alarms (enabled : Bool) : List Nat :=
  set_watchdog enabled

/-- serve (host.py lines 186-190) sends its startup GET_CAPS request before
setting _enabled to True, so the set_watchdog of that transmission runs with
the bridge disabled; likewise the final signal_int runs after _enabled became
false again. -/
def serve_startup_alarms : List Nat :=
  send_packet_alarms false

/-- The byte the ESC branch of recv_packet appends for an escaped byte e:
ESC for ESC_ESC, END for ESC_END, and e itself verbatim otherwise. -/
def esc_decode (e : Nat) : Nat :=
  if e = ESC_ESC then ESC else if e = ESC_END then END else e

/-- Instrumented recv_packet (host.py lines 123-148): the alarm timeouts armed
and the number of recv calls performed, on the same stream and accumulator as
recv_packet (the three escaped cases are factored through esc_decode).
set_watchdog is called once at the top of each loop iteration, before that
iteration's first recv; the escaped-byte recv inside the ESC branch is a
second recv in the same iteration, not preceded by set_watchdog.  An ESC
ending the stream gets an empty esc_char, appends nothing, and the next
iteration arms once more and reads the final zero-byte recv. -/
def recv_packet_trace (enabled : Bool) : List Nat → List Nat → List Nat × Nat
  | [], _ => (set_watchdog enabled, 1)
  | c :: rest, acc =>
    if c = END then
      if acc = [] then
        let t := recv_packet_trace enabled rest acc
        (set_watchdog enabled ++ t.1, t.2 + 1)
      else (set_watchdog enabled, 1)
    else if c = ESC then
      match rest with
      | [] => (set_watchdog enabled ++ set_watchdog enabled, 3)
      | e :: rest2 =>
        let t := recv_packet_trace enabled rest2 (acc ++ [esc_decode e])
        (set_watchdog enabled ++ t.1, t.2 + 2)
    else
      let t := recv_packet_trace enabled rest (acc ++ [c])
      (set_watchdog enabled ++ t.1, t.2 + 1)

end Uterm

namespace Uterm

theorem replaceByte_append (pat : Nat) (rep xs ys : List Nat) :
    replaceByte pat rep (xs ++ ys) = replaceByte pat rep xs ++ replaceByte pat rep ys := by
  induction xs with
  | nil => rfl
  | cons b bs ih => simp [replaceByte, ih]

theorem stuffed_nil : stuffed [] = [] := rfl

theorem stuffed_cons (b : Nat) (bs : List Nat) :
    stuffed (b :: bs) = enc1 b ++ stuffed bs := by
  unfold stuffed enc1
  by_cases hb : b = ESC
  · subst hb
    simp [replaceByte, replaceByte_append, ESC, END, ESC_ESC]
  · by_cases hb2 : b = END
    · subst hb2
      simp [replaceByte, hb, END, ESC]
    · simp [replaceByte, hb, hb2]

theorem send_packet_eq (data : List Nat) :
    send_packet data = END :: stuffed data ++ [END] := rfl

theorem recv_packet_end (rest acc : List Nat) (h : acc ≠ []) :
    recv_packet (END :: rest) acc = some (acc, rest) := by
  rw [recv_packet.eq_def]; simp [h]

theorem recv_packet_end_nil (s : List Nat) :
    recv_packet (END :: s) [] = recv_packet s [] := by
  rw [recv_packet.eq_def]; simp

theorem recv_packet_esc_esc (s acc : List Nat) :
    recv_packet (ESC :: ESC_ESC :: s) acc = recv_packet s (acc ++ [ESC]) := by
  rw [recv_packet.eq_def]; simp [ESC, END, ESC_ESC]

theorem recv_packet_esc_end (s acc : List Nat) :
    recv_packet (ESC :: ESC_END :: s) acc = recv_packet s (acc ++ [END]) := by
  rw [recv_packet.eq_def]; simp [ESC, END, ESC_ESC, ESC_END]

theorem recv_packet_plain (b : Nat) (s acc : List Nat) (hb : b ≠ ESC) (hb2 : b ≠ END) :
    recv_packet (b :: s) acc = recv_packet s (acc ++ [b]) := by
  rw [recv_packet.eq_def]; simp [hb, hb2]

/-- Decoding the stuffed body followed by the closing END delimiter returns the
accumulator extended with the original data, for any nonempty result. -/
theorem recv_packet_stuffed (D : List Nat) : ∀ acc rest : List Nat, acc ++ D ≠ [] →
    recv_packet (stuffed D ++ END :: rest) acc = some (acc ++ D, rest) := by
  induction D with
  | nil =>
    intro acc rest h
    simp only [List.append_nil] at h
    rw [stuffed_nil, List.nil_append, recv_packet_end rest acc h, List.append_nil]
  | cons b bs ih =>
    intro acc rest _
    rw [stuffed_cons]
    unfold enc1
    by_cases hb : b = ESC
    · subst hb
      rw [if_pos rfl]
      rw [show ([ESC, ESC_ESC] ++ stuffed bs) ++ END :: rest
            = ESC :: ESC_ESC :: (stuffed bs ++ END :: rest) by simp]
      rw [recv_packet_esc_esc, ih (acc ++ [ESC]) rest (by simp)]
      simp
    · by_cases hb2 : b = END
      · subst hb2
        rw [if_neg hb, if_pos rfl]
        rw [show ([ESC, ESC_END] ++ stuffed bs) ++ END :: rest
              = ESC :: ESC_END :: (stuffed bs ++ END :: rest) by simp]
        rw [recv_packet_esc_end, ih (acc ++ [END]) rest (by simp)]
        simp
      · rw [if_neg hb, if_neg hb2]
        rw [show ([b] ++ stuffed bs) ++ END :: rest
              = b :: (stuffed bs ++ END :: rest) by simp]
        rw [recv_packet_plain b _ acc hb hb2, ih (acc ++ [b]) rest (by simp)]
        simp

/-- C1 (amended): for every nonempty byte string D, decoding the SLIP encoding
produced by send_packet with the accumulator loop of recv_packet returns
exactly D, consuming exactly the encoding and leaving any following bytes
unread. -/
theorem slip_round_trip (D : List Nat) (h : D ≠ []) (rest : List Nat) :
    recv_packet (send_packet D ++ rest) [] = some (D, rest) := by
  have h1 : send_packet D ++ rest = END :: (stuffed D ++ END :: rest) := by
    rw [send_packet_eq]; simp
  rw [h1, recv_packet_end_nil, recv_packet_stuffed D [] rest (by simpa using h),
    List.nil_append]

/-- Witness for C1: the round trip evaluated on the mixed string C0 DB. -/
theorem slip_round_trip_witness :
    recv_packet (send_packet [0xc0, 0xdb] ++ []) [] = some ([0xc0, 0xdb], []) :=
  slip_round_trip [0xc0, 0xdb] (by decide) []

/-- C1 counterexample: for the empty byte string, decoding the encoding
END END does not return the empty string; the decoder skips END delimiters
seen with an empty accumulator and then hits the end of the stream. -/
theorem slip_round_trip_empty_fails :
    recv_packet (send_packet []) [] = none ∧
    recv_packet (send_packet []) [] ≠ some ([], []) := by
  constructor
  · decide
  · decide

theorem recv_packet_frame_ne_nil (s acc f r : List Nat)
    (h : recv_packet s acc = some (f, r)) : f ≠ [] := by
  induction s, acc using recv_packet.induct <;>
    rw [recv_packet.eq_def] at h <;> simp_all

/-- C9: every frame returned by recv_packet is non-empty; an END delimiter
arriving while the accumulator is empty is skipped rather than yielding an
empty frame; and the decoder enforces no 2-byte minimum frame length, so it
can return a one-byte frame. -/
theorem recv_packet_nonempty_frames :
    (∀ s acc f r : List Nat, recv_packet s acc = some (f, r) → f ≠ []) ∧
    (∀ s : List Nat, recv_packet (END :: s) [] = recv_packet s []) ∧
    recv_packet [0x41, END] [] = some ([0x41], []) :=
  ⟨recv_packet_frame_ne_nil, recv_packet_end_nil, by decide⟩

/-- Witness for C9, instantiating the non-emptiness part on the stream
41 C0, whose decoded frame is the one-byte frame 41. -/
theorem recv_packet_nonempty_frames_witness : ([0x41] : List Nat) ≠ [] :=
  recv_packet_nonempty_frames.1 [0x41, END] [] [0x41] [] (by decide)

/-- C6: get_keys discards the payload and returns an empty keystroke batch
when the decoded response frame does not begin with the tag 01 01, and returns
exactly the bytes following the tag when it does. -/
theorem get_keys_tag_check (resp : List Nat) :
    (resp.take 2 ≠ GET_KEYS → get_keys resp = []) ∧
    (∀ keys : List Nat, resp = GET_KEYS ++ keys → get_keys resp = keys) := by
  constructor
  · intro h
    unfold get_keys
    rw [if_neg]
    intro hp
    exact h (by
      have := List.isPrefixOf_iff_prefix.mp hp
      have h2 := List.prefix_iff_eq_take.mp this
      simpa [GET_KEYS] using h2.symm)
  · intro keys hk
    subst hk
    unfold get_keys
    rw [if_pos (List.isPrefixOf_iff_prefix.mpr (List.prefix_append _ _))]
    simp [GET_KEYS]

/-- Witness for C6, on a mismatched frame 02 02 09 and on a matched frame
01 01 6C. -/
theorem get_keys_tag_check_witness :
    get_keys [0x02, 0x02, 0x09] = [] ∧ get_keys [0x01, 0x01, 0x6c] = [0x6c] :=
  ⟨(get_keys_tag_check [0x02, 0x02, 0x09]).1 (by decide),
   (get_keys_tag_check [0x01, 0x01, 0x6c]).2 [0x6c] rfl⟩

/-- C8: on the serial transport, a send while last_direction is not OUT sleeps
SWAP_DELAY and sets the direction to OUT before the bytes flow, a recv while
last_direction is not IN does so symmetrically, and no sleep happens when the
direction is unchanged. -/
theorem serial_swap_delay (d : Direction) (data : List Nat) (n : Nat) :
    (d ≠ Direction.OUT →
      serial_send d data = (Direction.OUT, [SerEv.sleep SWAP_DELAY, SerEv.tx data])) ∧
    serial_send Direction.OUT data = (Direction.OUT, [SerEv.tx data]) ∧
    (d ≠ Direction.IN →
      serial_recv d n = (Direction.IN, [SerEv.sleep SWAP_DELAY, SerEv.rx n])) ∧
    serial_recv Direction.IN n = (Direction.IN, [SerEv.rx n]) := by
  have hs : SWAP_DELAY ≠ 0 := by norm_num [SWAP_DELAY]
  refine ⟨fun hd => ?_, ?_, fun hd => ?_, ?_⟩
  · simp [serial_send, hs, hd]
  · simp [serial_send, hs]
  · simp [serial_recv, hs, hd]
  · simp [serial_recv, hs]

/-- Witness for C8: the first send after startup (direction UND) incurs the
turnaround sleep. -/
theorem serial_swap_delay_witness :
    serial_send Direction.UND [0x07] =
      (Direction.OUT, [SerEv.sleep SWAP_DELAY, SerEv.tx [0x07]]) :=
  (serial_swap_delay Direction.UND [0x07] 1).1 (by decide)

/-- C10: attach is single-shot: with a fd already stored (not -1) it raises
RuntimeError before changing any state; a first attach sets the window size to
24 rows by 51 columns, puts the fd in nonblocking mode, registers it for read
and write readiness, and stores the fd. -/
theorem attach_single_shot (cur fd : Int) :
    (cur ≠ -1 → attach cur fd = Except.error ()) ∧
    attach (-1) fd = Except.ok (fd,
      [AttachEff.winsize 24 51, AttachEff.nonblocking, AttachEff.register true true]) := by
  constructor
  · intro h
    simp [attach, h]
  · simp [attach]

/-- Witness for C10: attaching with fd 3 already stored errors out. -/
theorem attach_single_shot_witness : attach 3 0 = Except.error () :=
  (attach_single_shot 3 0).1 (by decide)

/-- C4 counterexample: a short write (queue of one byte, writev consuming 0)
does not take the signal_int-and-exit path of an OSError; it raises a
RuntimeError that the except OSError clause does not catch. -/
theorem short_write_no_sigint :
    handle_pty_write [0x6c] (Except.ok 0) = WriteOutcome.fatalNoSigint ∧
    handle_pty_write [0x6c] (Except.ok 0) ≠ WriteOutcome.sigintExit := by
  constructor
  · decide
  · decide

/-- C4 (amended): a short write on the keystroke path is fatal, but through an
uncaught RuntimeError, without sending SIG_INT; only an OSError on the master
triggers signal_int followed by SystemExit. -/
theorem short_write_fatal (kbd : List Nat) (l : Nat)
    (hk : kbd ≠ []) (hl : l ≠ kbd.length) :
    handle_pty_write kbd (Except.ok l) = WriteOutcome.fatalNoSigint ∧
    handle_pty_write kbd (Except.error ()) = WriteOutcome.sigintExit := by
  constructor <;> simp [handle_pty_write, hk, hl]

/-- Witness for C4: queue 6C, short write of 0 bytes, and an OSError. -/
theorem short_write_fatal_witness :
    handle_pty_write [0x6c, 0x73] (Except.ok 1) = WriteOutcome.fatalNoSigint ∧
    handle_pty_write [0x6c, 0x73] (Except.error ()) = WriteOutcome.sigintExit :=
  short_write_fatal [0x6c, 0x73] 1 (by decide) (by decide)

/-- C5 counterexample: the graceful alarm handler sets graceful back to true
even though it has received no banner response at all. -/
theorem sigalrm_no_banner :
    (sigalrm_handler true true).graceful = true ∧
    (sigalrm_handler true true).received = [] := by
  constructor
  · decide
  · decide

/-- C5 (amended): an alarm while graceful clears the flag, sends a GET_CAPS
probe, and sets graceful back to true as soon as the send completes, reading
no response inside the handler (the flag stays false if the send itself
fails); an alarm while graceful is false is fatal and sends nothing. -/
theorem sigalrm_recovery (sendOk : Bool) :
    (sigalrm_handler true sendOk).sent = [GET_CAPS] ∧
    (sigalrm_handler true sendOk).received = [] ∧
    (sigalrm_handler true sendOk).graceful = sendOk ∧
    (sigalrm_handler true sendOk).fatal = !sendOk ∧
    (sigalrm_handler false sendOk).fatal = true ∧
    (sigalrm_handler false sendOk).sent = [] := by
  cases sendOk <;> decide

theorem serve_drain_flatten (q : List Nat) : (serve_drain q).flatten = q := by
  by_cases h : q = []
  · subst h
    rw [serve_drain.eq_def]
    simp
  · rw [serve_drain.eq_def, dif_neg h, List.flatten_cons,
      serve_drain_flatten (q.drop BUFSIZE), List.take_append_drop]
termination_by q.length
decreasing_by
  simp only [List.length_drop]
  have hq : 0 < q.length := List.length_pos.mpr h
  have hb : 0 < BUFSIZE := by decide
  omega

theorem serve_drain_le (q : List Nat) : ∀ c ∈ serve_drain q, c.length ≤ BUFSIZE := by
  intro c hc
  by_cases h : q = []
  · subst h
    rw [serve_drain.eq_def] at hc
    simp at hc
  · rw [serve_drain.eq_def, dif_neg h] at hc
    rcases List.mem_cons.mp hc with h1 | h2
    · subst h1
      exact List.length_take_le _ _
    · exact serve_drain_le (q.drop BUFSIZE) c h2
termination_by q.length
decreasing_by
  simp only [List.length_drop]
  have hq : 0 < q.length := List.length_pos.mpr h
  have hb : 0 < BUFSIZE := by decide
  omega

/-- A drain of a small non-empty queue emits it as a single payload. -/
theorem serve_drain_small (q : List Nat) (h1 : q ≠ []) (h2 : q.length ≤ BUFSIZE) :
    serve_drain q = [q] := by
  rw [serve_drain.eq_def, dif_neg h1, List.take_of_length_le h2,
    List.drop_eq_nil_of_le h2]
  rw [serve_drain.eq_def]
  simp

theorem serve_steps_spec (tr : List PtyEvent) :
    ∀ (q : List Nat) (out : List (List Nat)),
    ((tr.foldl serve_step (q, out)).2.flatten ++ (tr.foldl serve_step (q, out)).1
      = out.flatten ++ q ++ (tr.map read_bytes).flatten) ∧
    (∀ c ∈ (tr.foldl serve_step (q, out)).2, c ∈ out ∨ c.length ≤ BUFSIZE) := by
  induction tr with
  | nil =>
    intro q out
    constructor
    · simp
    · intro c hc
      exact Or.inl hc
  | cons e t ih =>
    intro q out
    cases e with
    | read bs =>
      have h := ih (q ++ bs) out
      constructor
      · rw [List.foldl_cons]
        simp only [serve_step]
        rw [h.1]
        simp [read_bytes, List.append_assoc]
      · intro c hc
        rw [List.foldl_cons] at hc
        simp only [serve_step] at hc
        exact h.2 c hc
    | drain =>
      have h := ih [] (out ++ serve_drain q)
      constructor
      · rw [List.foldl_cons]
        simp only [serve_step]
        rw [h.1]
        simp [read_bytes, serve_drain_flatten, List.append_assoc]
      · intro c hc
        rw [List.foldl_cons] at hc
        simp only [serve_step] at hc
        rcases h.2 c hc with h1 | h2
        · rcases List.mem_append.mp h1 with h3 | h4
          · exact Or.inl h3
          · exact Or.inr (serve_drain_le q c h4)
        · exact Or.inr h2

/-- C2: in every interleaving of PTY reads and serve drains, each emitted
SEND_PTY payload has at most BUFSIZE = 92 bytes, and the payloads concatenated
in emission order followed by the bytes still queued equal the PTY reads
concatenated in read order; in particular, whenever the queue has been fully
drained, the emitted payloads are exactly the bytes read from the PTY master,
with no loss, duplication or reordering. -/
theorem send_pty_chunking (tr : List PtyEvent) :
    (∀ c ∈ (tr.foldl serve_step ([], [])).2, c.length ≤ BUFSIZE) ∧
    ((tr.foldl serve_step ([], [])).2.flatten ++ (tr.foldl serve_step ([], [])).1
      = (tr.map read_bytes).flatten) ∧
    ((tr.foldl serve_step ([], [])).1 = [] →
      (tr.foldl serve_step ([], [])).2.flatten = (tr.map read_bytes).flatten) := by
  have h := serve_steps_spec tr [] []
  refine ⟨?_, ?_, ?_⟩
  · intro c hc
    rcases h.2 c hc with h1 | h2
    · simp at h1
    · exact h2
  · simpa using h.1
  · intro hq
    have h2 := h.1
    rw [hq] at h2
    simpa using h2

/-- Witness for C2 on the trace read 58 58, drain: the emitted payload obeys
the bound and the payloads equal the reads. -/
theorem send_pty_chunking_witness :
    ([0x58, 0x58] : List Nat).length ≤ BUFSIZE ∧
    (([PtyEvent.read [0x58, 0x58], PtyEvent.drain].foldl serve_step ([], [])).2.flatten
      = ([PtyEvent.read [0x58, 0x58], PtyEvent.drain].map read_bytes).flatten) := by
  have hd : serve_drain [0x58, 0x58] = [[0x58, 0x58]] :=
    serve_drain_small _ (by decide) (by decide)
  refine ⟨(send_pty_chunking [PtyEvent.read [0x58, 0x58], PtyEvent.drain]).1
      [0x58, 0x58] ?_,
    (send_pty_chunking [PtyEvent.read [0x58, 0x58], PtyEvent.drain]).2.2 ?_⟩
  · simp [serve_step, hd]
  · simp [serve_step]

theorem ser_check_pair (s : Nat) (t : List Ev) :
    ser_check s s (Ev.req :: Ev.resp :: t) = ser_check (s + 1) (s + 1) t := by
  have h1 : decide (s ≤ s + 1) = true := decide_eq_true (Nat.le_succ s)
  have h2 : decide (s + 1 ≤ s + 1) = true := decide_eq_true (Nat.le_refl _)
  have h3 : decide (s + 1 ≤ s + 1 + 1) = true := decide_eq_true (Nat.le_succ _)
  simp [ser_check, h1, h2, h3]

theorem ser_check_single_req (s : Nat) : ser_check s s [Ev.req] = true := by
  have h1 : decide (s ≤ s + 1) = true := decide_eq_true (Nat.le_succ s)
  have h2 : decide (s + 1 ≤ s + 1) = true := decide_eq_true (Nat.le_refl _)
  simp [ser_check, h1, h2]

theorem ser_tail_ok (rest : List Op) (h : serve_tail rest = true)
    (hal : Op.alarm ∉ rest) (s : Nat) :
    ser_check s s ((rest.map opEvents).flatten) = true := by
  induction rest using serve_tail.induct generalizing s with
  | case1 =>
    rw [serve_tail.eq_def] at h
    simp at h
  | case2 o =>
    have ho : o = Op.sigint := by
      rw [serve_tail.eq_def] at h
      simpa using h
    subst ho
    simpa [opEvents] using ser_check_single_req s
  | case3 o o2 t ih =>
    rw [serve_tail.eq_def] at h
    have hm : midOp o = true ∧ serve_tail (o2 :: t) = true := by
      simpa [Bool.and_eq_true] using h
    have hal2 : Op.alarm ∉ o2 :: t := fun hmem => hal (List.mem_cons_of_mem _ hmem)
    have hno : o ≠ Op.alarm := fun he => hal (he ▸ List.mem_cons_self _ _)
    have ho : o = Op.keys ∨ o = Op.pty := by
      cases o <;> simp_all [midOp]
    have hstep : ∀ x : List Ev, ser_check s s (Ev.req :: Ev.resp :: x)
        = ser_check (s + 1) (s + 1) x := fun x => ser_check_pair s x
    rcases ho with ho | ho <;> subst ho <;>
      simpa [opEvents, hstep] using ih hm.2 hal2 (s + 1)

/-- C3 counterexample: a serve execution in which the watchdog fires once
while graceful (sending the recovery GET_CAPS with no response read) and the
loop then issues a GET_KEYS: after the GET_KEYS request the host has sent
three request frames and received one response frame, so the sent count
exceeds the received count by two and the serialization invariant fails. -/
theorem request_serialization_fails :
    serve_ops [Op.caps, Op.alarm, Op.keys, Op.sigint] = true ∧
    ser_check 0 0
      (([Op.caps, Op.alarm, Op.keys, Op.sigint].map opEvents).flatten) = false := by
  constructor
  · decide
  · decide

/-- C3 (amended): in serve executions without watchdog recoveries, at every
point the number of requests sent equals the number of responses received or
exceeds it by exactly one: the startup GET_CAPS and every GET_KEYS and
SEND_PTY pair one send with one response read, and the final SIG_INT leaves
the trace with sent = received + 1.  The recovery GET_CAPS probe of
sigalrm_handler is sent without reading a response, so a trace containing it
can reach sent = received + 2. -/
theorem request_serialization (ops : List Op) (h : serve_ops ops = true)
    (hal : Op.alarm ∉ ops) :
    ser_check 0 0 ((ops.map opEvents).flatten) = true := by
  cases ops with
  | nil =>
    rw [serve_ops.eq_def] at h
    simp at h
  | cons o rest =>
    have ho : o = Op.caps := by
      cases o <;> simp_all [serve_ops]
    subst ho
    have ht : serve_tail rest = true := by
      rw [serve_ops.eq_def] at h
      simpa using h
    have hal2 : Op.alarm ∉ rest := fun hm => hal (List.mem_cons_of_mem _ hm)
    have := ser_tail_ok rest ht hal2 1
    simpa [opEvents, ser_check_pair] using this

/-- Witness for C3 on the alarm-free execution GET_CAPS, GET_KEYS, SIG_INT. -/
theorem request_serialization_witness :
    ser_check 0 0 (([Op.caps, Op.keys, Op.sigint].map opEvents).flatten) = true :=
  request_serialization [Op.caps, Op.keys, Op.sigint] (by decide) (by decide)

theorem rpt_nil (en : Bool) (acc : List Nat) :
    recv_packet_trace en [] acc = (set_watchdog en, 1) := rfl

theorem rpt_end_skip (en : Bool) (rest : List Nat) :
    recv_packet_trace en (END :: rest) [] =
      (set_watchdog en ++ (recv_packet_trace en rest []).1,
       (recv_packet_trace en rest []).2 + 1) := by
  rw [recv_packet_trace.eq_def]
  simp

theorem rpt_end_return (en : Bool) (rest acc : List Nat) (h : acc ≠ []) :
    recv_packet_trace en (END :: rest) acc = (set_watchdog en, 1) := by
  rw [recv_packet_trace.eq_def]
  simp [h]

theorem rpt_esc_last (en : Bool) (acc : List Nat) :
    recv_packet_trace en [ESC] acc = (set_watchdog en ++ set_watchdog en, 3) := by
  rw [recv_packet_trace.eq_def]
  simp [ESC, END]

theorem rpt_esc_pair (en : Bool) (e : Nat) (rest2 acc : List Nat) :
    recv_packet_trace en (ESC :: e :: rest2) acc =
      (set_watchdog en ++ (recv_packet_trace en rest2 (acc ++ [esc_decode e])).1,
       (recv_packet_trace en rest2 (acc ++ [esc_decode e])).2 + 2) := by
  rw [recv_packet_trace.eq_def]
  simp [ESC, END]

theorem rpt_plain (en : Bool) (c : Nat) (rest acc : List Nat)
    (h1 : c ≠ END) (h2 : c ≠ ESC) :
    recv_packet_trace en (c :: rest) acc =
      (set_watchdog en ++ (recv_packet_trace en rest (acc ++ [c])).1,
       (recv_packet_trace en rest (acc ++ [c])).2 + 1) := by
  rw [recv_packet_trace.eq_def]
  simp [h1, h2]

theorem recv_packet_trace_mem (s acc : List Nat) :
    ∀ t ∈ (recv_packet_trace true s acc).1, t = IO_TIMEOUT := by
  induction s, acc using recv_packet_trace.induct true with
  | case1 acc => rw [rpt_nil]; simp [set_watchdog]
  | case2 rest ih =>
    rw [rpt_end_skip]
    simp only [List.mem_append, set_watchdog]
    intro t ht
    rcases ht with ht | ht
    · simp at ht; omega
    · exact ih t ht
  | case3 rest acc h => rw [rpt_end_return _ _ _ h]; simp [set_watchdog]
  | case4 acc h => rw [rpt_esc_last]; simp [set_watchdog]
  | case5 acc e rest2 h ih =>
    rw [rpt_esc_pair]
    simp only [List.mem_append, set_watchdog]
    intro t ht
    rcases ht with ht | ht
    · simp at ht; omega
    · exact ih t ht
  | case6 c rest acc h1 h2 ih =>
    rw [rpt_plain _ _ _ _ h1 h2]
    simp only [List.mem_append, set_watchdog]
    intro t ht
    rcases ht with ht | ht
    · simp at ht; omega
    · exact ih t ht

theorem recv_packet_trace_disabled (s acc : List Nat) :
    (recv_packet_trace false s acc).1 = [] := by
  induction s, acc using recv_packet_trace.induct false with
  | case1 acc => rw [rpt_nil]; simp [set_watchdog]
  | case2 rest ih => rw [rpt_end_skip]; simp [set_watchdog, ih]
  | case3 rest acc h => rw [rpt_end_return _ _ _ h]; simp [set_watchdog]
  | case4 acc h => rw [rpt_esc_last]; simp [set_watchdog]
  | case5 acc e rest2 h ih => rw [rpt_esc_pair]; simp [set_watchdog, ih]
  | case6 c rest acc h1 h2 ih => rw [rpt_plain _ _ _ _ h1 h2]; simp [set_watchdog, ih]

theorem recv_packet_trace_bounds (s acc : List Nat) :
    (recv_packet_trace true s acc).1.length ≤ (recv_packet_trace true s acc).2 ∧
    (recv_packet_trace true s acc).2 ≤ 2 * (recv_packet_trace true s acc).1.length := by
  induction s, acc using recv_packet_trace.induct true with
  | case1 acc => rw [rpt_nil]; simp [set_watchdog]
  | case2 rest ih => rw [rpt_end_skip]; simp [set_watchdog]; omega
  | case3 rest acc h => rw [rpt_end_return _ _ _ h]; simp [set_watchdog]
  | case4 acc h => rw [rpt_esc_last]; simp [set_watchdog]
  | case5 acc e rest2 h ih => rw [rpt_esc_pair]; simp [set_watchdog]; omega
  | case6 c rest acc h1 h2 ih => rw [rpt_plain _ _ _ _ h1 h2]; simp [set_watchdog]; omega

/-- C7 counterexample: serve's startup GET_CAPS transmission is a send_packet
call, yet it arms no alarm at all, because set_watchdog does nothing while the
bridge is not yet enabled. -/
theorem watchdog_startup_unarmed :
    serve_startup_alarms = [] ∧ serve_startup_alarms ≠ [IO_TIMEOUT] := by
  constructor
  · decide
  · decide

/-- C7 (amended): send_packet and each iteration of recv_packet's receive
loop call set_watchdog, which arms the alarm for IO_TIMEOUT = 5 seconds when
the bridge is enabled and arms nothing when it is disabled (as at serve's
startup GET_CAPS and at the final SIG_INT); when enabled, every armed timeout
equals 5 and there is one per loop iteration, while an ESC iteration performs
a second receive without re-arming, so the receive count lies between the
number of alarms armed and twice that number. -/
theorem watchdog_arming (s acc : List Nat) :
    send_packet_alarms true = [IO_TIMEOUT] ∧
    send_packet_alarms false = [] ∧
    (∀ t ∈ (recv_packet_trace true s acc).1, t = IO_TIMEOUT) ∧
    (recv_packet_trace false s acc).1 = [] ∧
    (recv_packet_trace true s acc).1.length ≤ (recv_packet_trace true s acc).2 ∧
    (recv_packet_trace true s acc).2 ≤ 2 * (recv_packet_trace true s acc).1.length :=
  ⟨rfl, rfl, recv_packet_trace_mem s acc, recv_packet_trace_disabled s acc,
   (recv_packet_trace_bounds s acc).1, (recv_packet_trace_bounds s acc).2⟩

/-- Witness for C7 on the stream 41 C0 with the bridge enabled: both loop
iterations arm a 5-second alarm. -/
theorem watchdog_arming_witness : (5 : Nat) = IO_TIMEOUT :=
  (watchdog_arming [0x41, END] []).2.2.1 5 (by decide)

end Uterm
